import Mathlib

/-!
A shallow embedding of the `claude-statusline.py` status-line generator,
together with theorems checking its natural-language specification.

Modelling conventions:
* Transcript log lines are modelled by `Line`: a line is blank after
  stripping (`blank`), fails to decode as JSON (`badJson`), or decodes to an
  event record (`record r`).  Event records follow the data model of the
  transcript: an optional `type` string, an optional embedded message object,
  an optional `timestamp` value, and the presence or absence of a
  `toolUseResult` key.
* Python floats that are only compared, subtracted or floored are modelled
  by `ℚ`; Python's unbounded non-negative token counters by `Nat`.
* `time.time()` is modelled by an explicit `now` parameter (the code takes
  the invocation time once at entry of `parse_transcript_usage`).
* File I/O outcomes are modelled by `FileResult`: either the `open` /
  `readlines` call raises `OSError`/`IOError` (`err`), or it yields the list
  of (already classified) lines (`ok`).
* `datetime.fromisoformat` is modelled by an arbitrary parameter
  `parseIso : String → Option ℚ` (returning `none` exactly when the Python
  call raises `ValueError`).
* `json.loads` on the stdin payload is modelled by an arbitrary parameter
  `parse : String → Option JVal` (returning `none` exactly when the Python
  call raises `json.JSONDecodeError`).
-/

namespace Statusline

/-- A JSON value sitting in a `timestamp` position: the code only ever
distinguishes strings, numbers and everything else. -/
inductive TimeVal where
  | str (s : String)
  | num (q : ℚ)
  | other
  deriving DecidableEq

/-- The `usage` sub-record of an assistant message: four optional integer
counters, read with `usage.get(key, 0)` in the source. -/
structure Usage where
  input_tokens : Option Nat
  cache_creation_input_tokens : Option Nat
  cache_read_input_tokens : Option Nat
  output_tokens : Option Nat
  deriving DecidableEq

/-- The embedded `message` object of a record: an optional `usage`
sub-record, an optional `model` string and an optional `stop_reason`. -/
structure Message where
  usage : Option Usage
  model : Option String
  stop_reason : Option String
  deriving DecidableEq

/-- One decoded transcript event record. `type`, `message` and `timestamp`
model `obj.get(...)` / `key in obj` accesses; `toolUseResult` models the
presence of the `toolUseResult` key. -/
structure EventRec where
  type : Option String
  message : Option Message
  timestamp : Option TimeVal
  toolUseResult : Bool
  deriving DecidableEq

/-- One raw transcript line, as the scanner classifies it: blank after
`strip()`, undecodable JSON, or a decoded event record. -/
inductive Line where
  | blank
  | badJson
  | record (r : EventRec)
  deriving DecidableEq

/-- The scanner's result tuple
`(context_used_tokens, answer_timestamp, question_timestamp, is_running, final_model)`. -/
structure UsageSnapshot where
  context_used_tokens : Nat
  answer_timestamp : TimeVal
  question_timestamp : TimeVal
  is_running : Bool
  final_model : String
  deriving DecidableEq

/-- Outcome of opening and reading the transcript file: `err` models an
`OSError`/`IOError` raised by `open`/`readlines`, `ok` the list of lines. -/
inductive FileResult where
  | err
  | ok (lines : List Line)

/-- Configuration constant `CONTEXT_LIMIT = 200_000`. -/
def CONTEXT_LIMIT : Nat := 200000

/-- Configuration constant `MAX_STDIN_SIZE = 10_485_760`. -/
def MAX_STDIN_SIZE : Nat := 10485760

/-- Configuration constant `CONTEXT_HIGH_THRESHOLD = 90.0`. -/
def CONTEXT_HIGH_THRESHOLD : ℚ := 90

/-- Configuration constant `CONTEXT_MEDIUM_THRESHOLD = 65.0`. -/
def CONTEXT_MEDIUM_THRESHOLD : ℚ := 65

/-- Configuration constant `COLOR_HIGH = 31` (red). -/
def COLOR_HIGH : Nat := 31

/-- Configuration constant `COLOR_MEDIUM = 33` (orange). -/
def COLOR_MEDIUM : Nat := 33

/-- Configuration constant `COLOR_NONE = 0`. -/
def COLOR_NONE : Nat := 0

/-- The token sum of lines 174-182 of the source:
each of the four counters is read with `.get(key, 0)` and the four values
are added. -/
def usageSum (u : Usage) : Nat :=
  u.input_tokens.getD 0 + u.cache_creation_input_tokens.getD 0 +
    u.cache_read_input_tokens.getD 0 + u.output_tokens.getD 0

/-- `obj.get("type") in ["summary", "file-history-snapshot"]` (line 164). -/
def isBoundaryType (t : Option String) : Bool :=
  t == some "summary" || t == some "file-history-snapshot"

/-- The guard of lines 169-171:
`obj.get("type") == "assistant" and "message" in obj and "usage" in obj["message"]`,
returning the message and usage objects when it holds. -/
def recUsage (r : EventRec) : Option (Message × Usage) :=
  if r.type == some "assistant" then
    match r.message with
    | some m =>
      match m.usage with
      | some u => some (m, u)
      | none => none
    | none => none
  else none

/-- The guard of lines 205-207 of the inner (question) scan:
`prev_obj.get("type") == "user" and "message" in prev_obj and "toolUseResult" not in prev_obj`. -/
def isQuestionRec (r : EventRec) : Bool :=
  r.type == some "user" && r.message.isSome && !r.toolUseResult

/-- Lines 187-188: `if obj["message"].get("model"): final_model = obj["message"]["model"]`.
Python truthiness: an absent key or an empty string leaves the fallback. -/
def modelUpdate (fallback : String) : Option String → String
  | none => fallback
  | some s => if s = "" then fallback else s

/-- The inner backward scan of lines 195-209: walking from the record just
before the selected assistant record towards the start of the log (the input
list is that region already reversed, so the nearest record comes first),
skip blank and undecodable lines, and on the first record satisfying
`isQuestionRec` return `prev_obj.get("timestamp", question_timestamp)`
where `q0` is the still-unmodified default timestamp. -/
def findQuestionTs (q0 : TimeVal) : List Line → TimeVal
  | [] => q0
  | Line.blank :: rest => findQuestionTs q0 rest
  | Line.badJson :: rest => findQuestionTs q0 rest
  | Line.record r :: rest =>
    if isQuestionRec r then r.timestamp.getD q0 else findQuestionTs q0 rest

/-- The outer backward scan of lines 153-211, on the reversed line list
(most recent line first).  `b` is the running flag accumulated so far
(initially `len(lines) > 0`).  A boundary record (`summary` /
`file-history-snapshot`) forces the flag to `false` and scanning continues;
the first record passing `recUsage` produces the snapshot and stops the
scan (`break`, line 211); every other line is skipped. -/
def scanRev (now : TimeVal) (m0 : String) : Bool → List Line → UsageSnapshot
  | b, [] =>
    { context_used_tokens := 0, answer_timestamp := now,
      question_timestamp := now, is_running := b, final_model := m0 }
  | b, Line.blank :: rest => scanRev now m0 b rest
  | b, Line.badJson :: rest => scanRev now m0 b rest
  | b, Line.record r :: rest =>
    if isBoundaryType r.type then scanRev now m0 false rest
    else
      match recUsage r with
      | some mu =>
        { context_used_tokens := usageSum mu.2,
          answer_timestamp := r.timestamp.getD now,
          question_timestamp := findQuestionTs now rest,
          is_running := if mu.1.stop_reason == some "end_turn" then false else b,
          final_model := modelUpdate m0 mu.1.model }
      | none => scanRev now m0 b rest

/-- `parse_transcript_usage` (lines 130-217).  On a file read error the
`except` clause at line 213 swallows the exception and the initial values of
lines 141-145 are returned — in particular `is_running` keeps its initial
value `True`, because the assignment `is_running = len(lines) > 0` at
line 150 is never reached.  On a successful read the backward scan of the
lines runs with `is_running` initialised to `len(lines) > 0`. -/
def parse_transcript_usage (now : TimeVal) (tr : FileResult)
    (initial_model : String) : UsageSnapshot :=
  match tr with
  | FileResult.err =>
    { context_used_tokens := 0, answer_timestamp := now,
      question_timestamp := now, is_running := true,
      final_model := initial_model }
  | FileResult.ok lines => scanRev now initial_model (!lines.isEmpty) lines.reverse

/-- A line that carries a usage-bearing assistant record. -/
def lineHasUsage : Line → Bool
  | Line.record r => (recUsage r).isSome
  | _ => false

/-- A line that carries a session-boundary record. -/
def lineBoundary : Line → Bool
  | Line.record r => isBoundaryType r.type
  | _ => false

/-- A line that carries a qualifying user (question) record. -/
def lineIsQuestion : Line → Bool
  | Line.record r => isQuestionRec r
  | _ => false

/-- A line that yields no decoded record (blank, or JSON decode failure). -/
def lineUndecodable : Line → Bool
  | Line.record _ => false
  | _ => true

/-- `calculate_response_duration` (lines 220-241), parametrised by the
model of `datetime.fromisoformat` (`parseIso` returns `none` exactly when
Python raises `ValueError`).  Mixed or unsupported types fall through both
`isinstance` branches; a string parse failure is caught at line 238; both
paths return `0.0`. -/
def calculate_response_duration (parseIso : String → Option ℚ) :
    TimeVal → TimeVal → ℚ
  | TimeVal.str sa, TimeVal.str sq =>
    match parseIso (sa.replace "Z" "+00:00"), parseIso (sq.replace "Z" "+00:00") with
    | some x, some y => x - y
    | _, _ => 0
  | TimeVal.num x, TimeVal.num y => x - y
  | _, _ => 0

/-- `get_context_color` (lines 244-258). -/
def get_context_color (percentage : ℚ) : Nat :=
  if CONTEXT_HIGH_THRESHOLD < percentage then COLOR_HIGH
  else if CONTEXT_MEDIUM_THRESHOLD < percentage then COLOR_MEDIUM
  else COLOR_NONE

/-- The whitespace stripped by Python's `str.strip()`: the code points for
which `str.isspace()` holds (CPython's `Py_UNICODE_ISSPACE`): U+0009-U+000D,
U+001C-U+001F, U+0020, U+0085, U+00A0, U+1680, U+2000-U+200A, U+2028,
U+2029, U+202F, U+205F and U+3000. -/
def isPySpace (c : Char) : Bool :=
  let n := c.toNat
  (9 ≤ n && n ≤ 13) || (28 ≤ n && n ≤ 32) || n == 133 || n == 160 ||
    n == 5760 || (8192 ≤ n && n ≤ 8202) || n == 8232 || n == 8233 ||
    n == 8239 || n == 8287 || n == 12288

/-- Python `str.strip()`: drop leading and trailing whitespace. -/
def pyStrip (s : String) : String :=
  String.mk (((s.toList.dropWhile isPySpace).reverse.dropWhile isPySpace).reverse)

/-- A character of the regex class `[a-zA-Z0-9+.-]` (also the scheme
characters accepted by `urllib.parse`). -/
def isSchemeChar (c : Char) : Bool :=
  c.isAlpha || c.isDigit || c == '+' || c == '.' || c == '-'

/-- Tail of the regex `[a-zA-Z0-9+.-]*://`: either the marker starts here,
or the current character is a scheme character and the match continues. -/
def schemeMarkAux : List Char → Bool
  | ':' :: '/' :: '/' :: _ => true
  | c :: rest => isSchemeChar c && schemeMarkAux rest
  | [] => false

/-- `re.match(r"^[a-zA-Z][a-zA-Z0-9+.-]*://", candidate)` (line 96). -/
def matchesSchemeMark (s : String) : Bool :=
  match s.toList with
  | [] => false
  | c :: rest => c.isAlpha && schemeMarkAux rest

/-- The components of `urllib.parse.urlparse` used by the source. -/
structure UrlParts where
  scheme : String
  netloc : String
  path : String
  deriving DecidableEq

/-- Scheme splitting of `urllib.parse.urlsplit`: if the text before the
first `:` is non-empty, starts with a letter and consists of scheme
characters, it is the (lower-cased) scheme and the rest follows the colon;
otherwise there is no scheme. -/
def splitScheme (cs : List Char) : String × List Char :=
  let pre := cs.takeWhile (fun c => c != ':')
  if pre.length < cs.length ∧ pre ≠ [] ∧
      (pre.headD 'a').isAlpha ∧ pre.all isSchemeChar then
    (String.mk (pre.map Char.toLower), cs.drop (pre.length + 1))
  else ("", cs)

/-- The component splitting of `urllib.parse.urlsplit` for the fields the
source reads (`netloc`, `path`): after the scheme, a leading `//`
introduces the netloc, which extends to the first `/`, `?` or `#`; the path
extends to the first `?` or `#`.  A netloc containing `[` without `]`, or
`]` without `[`, makes `urlsplit` raise `ValueError("Invalid IPv6 URL")`,
modelled by the `error` outcome.  (The stricter bracketed-host validation
of recent CPython, which can also reject a netloc containing both
brackets, is not modelled; no theorem below touches a netloc containing a
bracket.) -/
def urlsplitModel (s : String) : Except String UrlParts :=
  let sr := splitScheme s.toList
  let rest := sr.2
  if rest.take 2 = ['/', '/'] then
    let netloc := (rest.drop 2).takeWhile (fun c => !(c == '/' || c == '?' || c == '#'))
    if (netloc.contains '[' && !netloc.contains ']') ||
        (netloc.contains ']' && !netloc.contains '[') then
      Except.error "Invalid IPv6 URL"
    else
      let after := (rest.drop 2).drop netloc.length
      Except.ok ⟨sr.1, String.mk netloc,
        String.mk (after.takeWhile (fun c => !(c == '?' || c == '#')))⟩
  else
    Except.ok ⟨sr.1, "",
      String.mk (rest.takeWhile (fun c => !(c == '?' || c == '#')))⟩

/-- Lines 96-97: prepend the default scheme when the `scheme://` marker
regex does not match. -/
def normalizedCandidate (s : String) : String :=
  if matchesSchemeMark s then s else "https://" ++ s

/-- `extract_base_host` (lines 76-106).  `none` as input models both the
Python `None` and any non-string value.  The `Except` layer models the
`ValueError` of `urlparse` propagating out of the function uncaught — the
only surrounding handler, in `get_base_url`, catches `OSError`/`IOError`/
`JSONDecodeError` only, so the process crashes with a traceback. -/
def extract_base_host : Option String → Except String (Option String)
  | none => Except.ok none
  | some value =>
    if value = "" then Except.ok none
    else
      let candidate := pyStrip value
      if candidate = "" then Except.ok none
      else
        match urlsplitModel (normalizedCandidate candidate) with
        | Except.error e => Except.error e
        | Except.ok parsed =>
          Except.ok
            (if parsed.netloc ≠ "" then some parsed.netloc
             else
               let sp := parsed.path.toList.dropWhile (fun c => c == '/')
               if sp ≠ [] then some (String.mk (sp.takeWhile (fun c => c != '/')))
               else none)

/-- The host selection applied to the parsed URL (lines 100-106): the
authority component when non-empty, otherwise the first segment of the
path once leading slashes are stripped, otherwise nothing. -/
def hostFromParts (p : UrlParts) : Option String :=
  if p.netloc ≠ "" then some p.netloc
  else
    let sp := p.path.toList.dropWhile (fun c => c == '/')
    if sp ≠ [] then some (String.mk (sp.takeWhile (fun c => c != '/')))
    else none

/-- Minutes field of `time.gmtime(t)` for an integral number of seconds
since the epoch (the C `gmtime` normalises into the range 0-59 also for
negative times). -/
def gmtime_min (t : Int) : Nat := ((t.emod 3600) / 60).toNat

/-- Seconds field of `time.gmtime(t)`. -/
def gmtime_sec (t : Int) : Nat := (t.emod 60).toNat

/-- Zero-padded two-digit rendering used by `strftime` for `%M` and `%S`. -/
def pad2 (n : Nat) : String := if n < 10 then "0" ++ toString n else toString n

/-- `time.strftime("%M:%S", time.gmtime(response_duration))` (line 321).
`time.gmtime` converts its float argument to an integer with floor
rounding, and on Linux accepts negative arguments (times before 1970). -/
def readable_duration (d : ℚ) : String :=
  pad2 (gmtime_min ⌊d⌋) ++ ":" ++ pad2 (gmtime_sec ⌊d⌋)

/-- A JSON value as produced by `json.loads` on the stdin payload. -/
inductive JVal where
  | obj (fields : List (String × JVal))
  | arr (elems : List JVal)
  | str (s : String)
  | num (q : ℚ)
  | bool (b : Bool)
  | null

/-- Naive list containment used to model Python `in` on strings. -/
def beginsWith : List Char → List Char → Bool
  | [], _ => true
  | _ :: _, [] => false
  | a :: as, b :: bs => a == b && beginsWith as bs

/-- `needle in hay` for Python strings (substring test). -/
def strContains (hay needle : String) : Bool :=
  go needle.toList hay.toList
where
  go (needle : List Char) : List Char → Bool
    | [] => needle.isEmpty
    | c :: rest => beginsWith needle (c :: rest) || go needle rest

/-- Result of Python's `key in data`: membership, non-membership, or a
`TypeError` (when `data` is a number, boolean or `None`). -/
inductive KeyCheck where
  | yes
  | no
  | typeErr

/-- Python `key in data` for a decoded JSON value: key lookup on a dict,
element equality on a list, substring test on a string, `TypeError`
otherwise. -/
def jHasKey (v : JVal) (k : String) : KeyCheck :=
  match v with
  | JVal.obj fields => if fields.any (fun p => p.1 == k) then KeyCheck.yes else KeyCheck.no
  | JVal.arr elems =>
    if elems.any (fun e => match e with | JVal.str t => t == k | _ => false)
    then KeyCheck.yes else KeyCheck.no
  | JVal.str s => if strContains s k then KeyCheck.yes else KeyCheck.no
  | _ => KeyCheck.typeErr

/-- Outcome of the input-validation stage of `main`: a fatal one-line
diagnostic followed by `sys.exit(1)`, an uncaught exception (Python then
exits with a traceback on stderr, no one-line diagnostic on stdout), or the
validated data. -/
inductive ValidationOutcome where
  | fatal (msg : String)
  | crash
  | ok (data : JVal)

/-- `required_keys = ["model", "workspace", "transcript_path"]` (line 65). -/
def required_keys : List String := ["model", "workspace", "transcript_path"]

/-- The key-presence loop of `parse_json_input` (lines 66-69): the first
missing key aborts with a diagnostic; a `TypeError` from `in` on a
non-container propagates uncaught. -/
def checkKeys (data : JVal) : List String → ValidationOutcome
  | [] => ValidationOutcome.ok data
  | k :: rest =>
    match jHasKey data k with
    | KeyCheck.typeErr => ValidationOutcome.crash
    | KeyCheck.no => ValidationOutcome.fatal ("Error: Missing required key " ++ k ++ " in JSON input")
    | KeyCheck.yes => checkKeys data rest

/-- `parse_json_input` (lines 50-73), parametrised by the model of
`json.loads`. -/
def parse_json_input (parse : String → Option JVal) (input : String) :
    ValidationOutcome :=
  match parse input with
  | none => ValidationOutcome.fatal "Error JSON parsing"
  | some data => checkKeys data required_keys

/-- The input-validation stage of `main` (lines 292-301):
`input_data = sys.stdin.read().strip()`, the empty check, the size check of
`validate_stdin_input`, then `parse_json_input`. -/
def mainOutcome (parse : String → Option JVal) (rawStdin : String) :
    ValidationOutcome :=
  let input := pyStrip rawStdin
  if input = "" then ValidationOutcome.fatal "Error: stdin is empty"
  else if MAX_STDIN_SIZE < input.length then
    ValidationOutcome.fatal "Error: Input too large"
  else parse_json_input parse input

/-- The process exit status resulting from a validation outcome: `sys.exit(1)`
on a fatal diagnostic, status 1 for an uncaught exception, 0 once
validation succeeded (the remaining work of `main` is total in this model). -/
def exitCodeOf : ValidationOutcome → Nat
  | ValidationOutcome.fatal _ => 1
  | ValidationOutcome.crash => 1
  | ValidationOutcome.ok _ => 0

/-- The fatal-input-error condition of the specification: empty stdin,
oversized stdin, a JSON decode error, or (for a top-level JSON object) a
missing required key. -/
def fatalInputError (parse : String → Option JVal) (rawStdin : String) : Prop :=
  pyStrip rawStdin = "" ∨
    MAX_STDIN_SIZE < (pyStrip rawStdin).length ∨
    parse (pyStrip rawStdin) = none ∨
    (∃ fields, parse (pyStrip rawStdin) = some (JVal.obj fields) ∧
      ∃ k ∈ required_keys, fields.any (fun p => p.1 == k) = false)

/-! ### Lemmas about the backward scan -/

/-- Lines carrying no usage-bearing assistant record are passed over by the
outer scan; the only effect they can have is that a boundary record forces
the running flag to `false`. -/
theorem scanRev_append_skip (now : TimeVal) (m0 : String) (l rest : List Line)
    (h : ∀ x ∈ l, lineHasUsage x = false) (b : Bool) :
    scanRev now m0 b (l ++ rest) =
      scanRev now m0 (b && !(l.any lineBoundary)) rest := by
  induction l generalizing b with
  | nil => simp
  | cons x l ih =>
    have hx : lineHasUsage x = false := h x (List.mem_cons_self _ _)
    have hl : ∀ y ∈ l, lineHasUsage y = false := fun y hy => h y (List.mem_cons_of_mem _ hy)
    cases x with
    | blank => simp [scanRev, ih hl, lineBoundary, List.any_cons]
    | badJson => simp [scanRev, ih hl, lineBoundary, List.any_cons]
    | record r =>
      have hr : recUsage r = none := by
        cases hrec : recUsage r with
        | none => rfl
        | some v => simp [lineHasUsage, hrec] at hx
      by_cases hb : isBoundaryType r.type
      · simp [scanRev, hb, ih hl, lineBoundary, List.any_cons]
      · simp [scanRev, hb, hr, ih hl, lineBoundary, List.any_cons]

/-- Lines carrying no qualifying user record are passed over by the inner
(question) scan. -/
theorem findQuestionTs_append_skip (q0 : TimeVal) (l rest : List Line)
    (h : ∀ x ∈ l, lineIsQuestion x = false) :
    findQuestionTs q0 (l ++ rest) = findQuestionTs q0 rest := by
  induction l with
  | nil => simp
  | cons x l ih =>
    have hx : lineIsQuestion x = false := h x (List.mem_cons_self _ _)
    have hl : ∀ y ∈ l, lineIsQuestion y = false := fun y hy => h y (List.mem_cons_of_mem _ hy)
    cases x with
    | blank => simp [findQuestionTs, ih hl]
    | badJson => simp [findQuestionTs, ih hl]
    | record r =>
      have hq : isQuestionRec r = false := by simpa [lineIsQuestion] using hx
      simp [findQuestionTs, hq, ih hl]

/-- The outer scan, arriving at a usage-bearing assistant record, produces
its snapshot and stops. -/
theorem scanRev_cons_usage (now : TimeVal) (m0 : String) (b : Bool)
    (a : EventRec) (m : Message) (u : Usage) (tail : List Line)
    (ha : a.type = some "assistant") (hm : a.message = some m)
    (hu : m.usage = some u) :
    scanRev now m0 b (Line.record a :: tail) =
      { context_used_tokens := usageSum u,
        answer_timestamp := a.timestamp.getD now,
        question_timestamp := findQuestionTs now tail,
        is_running := if m.stop_reason == some "end_turn" then false else b,
        final_model := modelUpdate m0 m.model } := by
  have hbd : isBoundaryType a.type = false := by rw [ha]; rfl
  have hru : recUsage a = some (m, u) := by simp [recUsage, ha, hm, hu]
  simp [scanRev, hbd, hru]

/-- Master decomposition lemma: when the transcript splits as
`pre ++ [assistant-with-usage] ++ suf` with no usage-bearing assistant
record in `suf`, the scanner's output is determined by the selected record,
the question scan over `pre`, and the boundary markers in `suf`. -/
theorem scan_select (now : TimeVal) (fb : String) (pre suf : List Line)
    (a : EventRec) (m : Message) (u : Usage)
    (ha : a.type = some "assistant") (hm : a.message = some m)
    (hu : m.usage = some u)
    (hsuf : ∀ x ∈ suf, lineHasUsage x = false) :
    parse_transcript_usage now (FileResult.ok (pre ++ Line.record a :: suf)) fb =
      { context_used_tokens := usageSum u,
        answer_timestamp := a.timestamp.getD now,
        question_timestamp := findQuestionTs now pre.reverse,
        is_running := if m.stop_reason == some "end_turn" then false
                      else !(suf.any lineBoundary),
        final_model := modelUpdate fb m.model } := by
  have hne : (pre ++ Line.record a :: suf).isEmpty = false := by
    cases pre <;> simp [List.isEmpty]
  have hrev : (pre ++ Line.record a :: suf).reverse =
      suf.reverse ++ (Line.record a :: pre.reverse) := by
    simp [List.reverse_append]
  have hsr : ∀ x ∈ suf.reverse, lineHasUsage x = false := by
    intro x hx; exact hsuf x (List.mem_reverse.mp hx)
  rw [parse_transcript_usage, hne, hrev,
    scanRev_append_skip now fb suf.reverse _ hsr,
    scanRev_cons_usage now fb _ a m u pre.reverse ha hm hu]
  simp [List.any_reverse]

/-! ### Claims -/

/-- Claim C1: for every transcript containing two or more assistant records
with usage blocks, the scan selects the one closest to the end of the log:
`contextUsedTokens`, `answerTimestamp`, `resolvedModel` are computed from
the most recent such record and `questionTimestamp` from the nearest
qualifying user record before it; earlier assistant-usage records are never
inspected, even if they have larger token counts (the earlier region `pre` is
universally quantified, so its contents — including larger counters — are
irrelevant to the first three fields and enter the fourth only through the
question scan). -/
theorem claim_C1_latest_assistant_selected
    (now : TimeVal) (fb : String) (pre suf : List Line)
    (a : EventRec) (m : Message) (u : Usage)
    (ha : a.type = some "assistant") (hm : a.message = some m)
    (hu : m.usage = some u)
    (hsuf : ∀ x ∈ suf, lineHasUsage x = false) :
    (parse_transcript_usage now (FileResult.ok (pre ++ Line.record a :: suf)) fb).context_used_tokens
        = usageSum u ∧
      (parse_transcript_usage now (FileResult.ok (pre ++ Line.record a :: suf)) fb).answer_timestamp
        = a.timestamp.getD now ∧
      (parse_transcript_usage now (FileResult.ok (pre ++ Line.record a :: suf)) fb).final_model
        = modelUpdate fb m.model ∧
      (parse_transcript_usage now (FileResult.ok (pre ++ Line.record a :: suf)) fb).question_timestamp
        = findQuestionTs now pre.reverse := by
  rw [scan_select now fb pre suf a m u ha hm hu hsuf]
  exact ⟨rfl, rfl, rfl, rfl⟩

/-- Witness for C1: a transcript whose earlier assistant record reports
999999 tokens while the later one reports 157; the scan reports 157 and the
later record's timestamp and model. -/
theorem claim_C1_latest_assistant_selected_witness :
    (parse_transcript_usage (TimeVal.num 0)
        (FileResult.ok
          ([Line.record ⟨some "user", some ⟨none, none, none⟩, some (TimeVal.num 5), false⟩,
            Line.record ⟨some "assistant",
              some ⟨some ⟨some 999999, none, none, none⟩, some "claude-old", none⟩,
              some (TimeVal.num 6), false⟩] ++
            Line.record ⟨some "assistant",
              some ⟨some ⟨some 100, none, some 7, some 50⟩, some "claude-x", some "end_turn"⟩,
              some (TimeVal.num 10), false⟩ :: [Line.blank]))
        "fb").context_used_tokens = 157 ∧
      (parse_transcript_usage (TimeVal.num 0)
        (FileResult.ok
          ([Line.record ⟨some "user", some ⟨none, none, none⟩, some (TimeVal.num 5), false⟩,
            Line.record ⟨some "assistant",
              some ⟨some ⟨some 999999, none, none, none⟩, some "claude-old", none⟩,
              some (TimeVal.num 6), false⟩] ++
            Line.record ⟨some "assistant",
              some ⟨some ⟨some 100, none, some 7, some 50⟩, some "claude-x", some "end_turn"⟩,
              some (TimeVal.num 10), false⟩ :: [Line.blank]))
        "fb").final_model = "claude-x" := by
  have h := claim_C1_latest_assistant_selected (TimeVal.num 0) "fb"
    [Line.record ⟨some "user", some ⟨none, none, none⟩, some (TimeVal.num 5), false⟩,
      Line.record ⟨some "assistant",
        some ⟨some ⟨some 999999, none, none, none⟩, some "claude-old", none⟩,
        some (TimeVal.num 6), false⟩]
    [Line.blank]
    ⟨some "assistant",
      some ⟨some ⟨some 100, none, some 7, some 50⟩, some "claude-x", some "end_turn"⟩,
      some (TimeVal.num 10), false⟩
    ⟨some ⟨some 100, none, some 7, some 50⟩, some "claude-x", some "end_turn"⟩
    ⟨some 100, none, some 7, some 50⟩
    rfl rfl rfl (by decide)
  exact ⟨h.1.trans (by decide), h.2.2.1.trans (by decide)⟩

/-- Claim C2: the reported `contextUsedTokens` of the selected assistant
record equals the exact sum of the four counters `input_tokens`,
`cache_creation_input_tokens`, `cache_read_input_tokens` and
`output_tokens`, where each absent counter contributes zero, regardless of
the counters' individual magnitudes (including zero). -/
theorem claim_C2_token_sum
    (now : TimeVal) (fb : String) (pre suf : List Line)
    (a : EventRec) (m : Message) (i cc cr o : Option Nat)
    (ha : a.type = some "assistant") (hm : a.message = some m)
    (hu : m.usage = some ⟨i, cc, cr, o⟩)
    (hsuf : ∀ x ∈ suf, lineHasUsage x = false) :
    (parse_transcript_usage now (FileResult.ok (pre ++ Line.record a :: suf)) fb).context_used_tokens
      = i.getD 0 + cc.getD 0 + cr.getD 0 + o.getD 0 := by
  rw [scan_select now fb pre suf a m ⟨i, cc, cr, o⟩ ha hm hu hsuf]
  rfl

/-- Witness for C2: a usage block with two absent counters; the sum is
`0 + 3 + 0 + 11 = 14`. -/
theorem claim_C2_token_sum_witness :
    (parse_transcript_usage (TimeVal.num 0)
        (FileResult.ok
          ([] ++ Line.record ⟨some "assistant",
              some ⟨some ⟨none, some 3, none, some 11⟩, none, none⟩,
              none, false⟩ :: []))
        "fb").context_used_tokens = 14 := by
  have h := claim_C2_token_sum (TimeVal.num 0) "fb" [] []
    ⟨some "assistant", some ⟨some ⟨none, some 3, none, some 11⟩, none, none⟩, none, false⟩
    ⟨some ⟨none, some 3, none, some 11⟩, none, none⟩
    none (some 3) none (some 11)
    rfl rfl rfl (by decide)
  exact h.trans (by decide)

/-- Counterexample to claim C3 as stated: when the transcript file cannot
be read, the returned `isRunning` is `true` — the initial value of line 144
is never overwritten, because the assignment `is_running = len(lines) > 0`
sits after the failing `open` — so it is not `false` as the claim asserts
for the case where no log lines could be obtained. -/
theorem claim_C3_counterexample :
    ¬ (parse_transcript_usage (TimeVal.num 0) FileResult.err "m").is_running = false := by
  decide

/-- Claim C3 (amended): when the transcript file cannot be read, or every
line fails to decode, the scan does not abort and returns zero tokens, both
timestamps equal to the invocation time and the caller-supplied fallback
model; on a read error `isRunning` keeps its initial value `true`, and when
the file was read but nothing decoded `isRunning = (log non-empty)`. -/
theorem claim_C3_degraded_defaults
    (now : TimeVal) (fb : String) (lines : List Line)
    (h : ∀ x ∈ lines, lineUndecodable x = true) :
    parse_transcript_usage now FileResult.err fb =
      { context_used_tokens := 0, answer_timestamp := now, question_timestamp := now,
        is_running := true, final_model := fb } ∧
    parse_transcript_usage now (FileResult.ok lines) fb =
      { context_used_tokens := 0, answer_timestamp := now, question_timestamp := now,
        is_running := !lines.isEmpty, final_model := fb } := by
  constructor
  · rfl
  · have h1 : ∀ x ∈ lines.reverse, lineHasUsage x = false := by
      intro x hx
      have hu := h x (List.mem_reverse.mp hx)
      cases x <;> simp_all [lineUndecodable, lineHasUsage]
    have h2 : lines.reverse.any lineBoundary = false := by
      rw [List.any_eq_false]
      intro x hx
      have hu := h x (List.mem_reverse.mp hx)
      cases x <;> simp_all [lineUndecodable, lineBoundary]
    have h3 : scanRev now fb (!lines.isEmpty) (lines.reverse ++ []) =
        scanRev now fb ((!lines.isEmpty) && !lines.reverse.any lineBoundary) [] :=
      scanRev_append_skip now fb lines.reverse [] h1 _
    rw [List.append_nil] at h3
    rw [parse_transcript_usage, h3, h2]
    simp [scanRev]

/-- Witness for the amended C3: a transcript consisting of one undecodable
line yields the all-defaults snapshot with `isRunning = true` (log
non-empty), and an unreadable file yields it with `isRunning = true`. -/
theorem claim_C3_degraded_defaults_witness :
    parse_transcript_usage (TimeVal.num 0) FileResult.err "m" =
      { context_used_tokens := 0, answer_timestamp := TimeVal.num 0,
        question_timestamp := TimeVal.num 0, is_running := true, final_model := "m" } ∧
    parse_transcript_usage (TimeVal.num 0) (FileResult.ok [Line.badJson]) "m" =
      { context_used_tokens := 0, answer_timestamp := TimeVal.num 0,
        question_timestamp := TimeVal.num 0, is_running := true, final_model := "m" } := by
  have h := claim_C3_degraded_defaults (TimeVal.num 0) "m" [Line.badJson] (by decide)
  exact ⟨h.1, h.2.trans (by decide)⟩

/-- Claim C4: an empty transcript yields `isRunning = false`; a non-empty
transcript with no boundary record at or after the selected assistant
record and a selected record (if any) whose `stop_reason` differs from
`end_turn` yields `isRunning = true`; and a boundary record
(`summary` / `file-history-snapshot`) met during the backward scan sets
`isRunning` to `false` without terminating the search for usage data,
which is still taken from an earlier assistant record. -/
theorem claim_C4_running_flag :
    (∀ (now : TimeVal) (fb : String),
      (parse_transcript_usage now (FileResult.ok []) fb).is_running = false) ∧
    (∀ (now : TimeVal) (fb : String) (pre suf : List Line)
        (a : EventRec) (m : Message) (u : Usage),
      a.type = some "assistant" → a.message = some m → m.usage = some u →
      (∀ x ∈ suf, lineHasUsage x = false) →
      (∀ x ∈ suf, lineBoundary x = false) →
      m.stop_reason ≠ some "end_turn" →
      (parse_transcript_usage now (FileResult.ok (pre ++ Line.record a :: suf)) fb).is_running
        = true) ∧
    (∀ (now : TimeVal) (fb : String) (lines : List Line),
      lines ≠ [] →
      (∀ x ∈ lines, lineHasUsage x = false) →
      (∀ x ∈ lines, lineBoundary x = false) →
      (parse_transcript_usage now (FileResult.ok lines) fb).is_running = true) ∧
    (∀ (now : TimeVal) (fb : String) (pre mid suf : List Line)
        (a s : EventRec) (m : Message) (u : Usage),
      a.type = some "assistant" → a.message = some m → m.usage = some u →
      isBoundaryType s.type = true →
      (∀ x ∈ mid, lineHasUsage x = false) →
      (∀ x ∈ suf, lineHasUsage x = false) →
      (parse_transcript_usage now
          (FileResult.ok (pre ++ Line.record a :: (mid ++ Line.record s :: suf))) fb).is_running
          = false ∧
        (parse_transcript_usage now
          (FileResult.ok (pre ++ Line.record a :: (mid ++ Line.record s :: suf))) fb).context_used_tokens
          = usageSum u) := by
  refine ⟨fun now fb => rfl, ?_, ?_, ?_⟩
  · intro now fb pre suf a m u ha hm hu hsuf hbd hstop
    rw [scan_select now fb pre suf a m u ha hm hu hsuf]
    have h1 : (m.stop_reason == some "end_turn") = false := by
      simpa using hstop
    have h2 : suf.any lineBoundary = false := by
      rw [List.any_eq_false]; intro x hx; simp [hbd x hx]
    simp [h1, h2]
  · intro now fb lines hne h1 h2
    have hr1 : ∀ x ∈ lines.reverse, lineHasUsage x = false :=
      fun x hx => h1 x (List.mem_reverse.mp hx)
    have hr2 : lines.reverse.any lineBoundary = false := by
      rw [List.any_eq_false]; intro x hx; simp [h2 x (List.mem_reverse.mp hx)]
    have h3 : scanRev now fb (!lines.isEmpty) (lines.reverse ++ []) =
        scanRev now fb ((!lines.isEmpty) && !lines.reverse.any lineBoundary) [] :=
      scanRev_append_skip now fb lines.reverse [] hr1 _
    rw [List.append_nil] at h3
    rw [parse_transcript_usage, h3, hr2]
    cases lines with
    | nil => exact absurd rfl hne
    | cons y l => simp [scanRev]
  · intro now fb pre mid suf a s m u ha hm hu hbd hmid hsuf
    have hsa : recUsage s = none := by
      rw [recUsage]
      have hne : (s.type == some "assistant") = false := by
        cases ht : s.type with
        | none => rfl
        | some t =>
          rw [ht] at hbd
          simp only [isBoundaryType, Bool.or_eq_true, beq_iff_eq, Option.some.injEq] at hbd
          rcases hbd with h | h <;> simp [h]
      simp [hne]
    have hall : ∀ x ∈ mid ++ Line.record s :: suf, lineHasUsage x = false := by
      intro x hx
      rcases List.mem_append.mp hx with h | h
      · exact hmid x h
      · rcases List.mem_cons.mp h with h | h
        · rw [h]; simp [lineHasUsage, hsa]
        · exact hsuf x h
    rw [scan_select now fb pre (mid ++ Line.record s :: suf) a m u ha hm hu hall]
    have hany : (mid ++ Line.record s :: suf).any lineBoundary = true := by
      simp [List.any_append, List.any_cons, lineBoundary, hbd]
    constructor
    · simp [hany]
    · rfl

/-- Witness for C4 (second conjunct): a one-record transcript whose
assistant record has no `end_turn` stop reason reports `isRunning = true`. -/
theorem claim_C4_running_flag_witness :
    (parse_transcript_usage (TimeVal.num 0)
        (FileResult.ok ([] ++ Line.record ⟨some "assistant",
          some ⟨some ⟨some 1, none, none, none⟩, none, none⟩, none, false⟩ :: []))
        "m").is_running = true := by
  exact claim_C4_running_flag.2.1 (TimeVal.num 0) "m" [] []
    ⟨some "assistant", some ⟨some ⟨some 1, none, none, none⟩, none, none⟩, none, false⟩
    ⟨some ⟨some 1, none, none, none⟩, none, none⟩
    ⟨some 1, none, none, none⟩
    rfl rfl rfl (by decide) (by decide) (by decide)

/-- Claim C5: `questionTimestamp` is taken from the nearest record strictly
before the selected assistant record whose type is `user`, which has a
message body and no `toolUseResult` marker; a record carrying a
`toolUseResult` marker is never selected (the inner scan steps over it);
and with no qualifying user record before the assistant record the
timestamp keeps its default (the invocation time). -/
theorem claim_C5_question_timestamp
    (now : TimeVal) (fb : String) (pre suf : List Line)
    (a : EventRec) (m : Message) (u : Usage)
    (ha : a.type = some "assistant") (hm : a.message = some m)
    (hu : m.usage = some u)
    (hsuf : ∀ x ∈ suf, lineHasUsage x = false) :
    (∀ (pre1 pre2 : List Line) (uR : EventRec),
      pre = pre1 ++ Line.record uR :: pre2 →
      isQuestionRec uR = true →
      (∀ x ∈ pre2, lineIsQuestion x = false) →
      (parse_transcript_usage now (FileResult.ok (pre ++ Line.record a :: suf)) fb).question_timestamp
        = uR.timestamp.getD now) ∧
    (∀ (t : EventRec) (l : List Line) (q0 : TimeVal),
      t.toolUseResult = true →
      findQuestionTs q0 (Line.record t :: l) = findQuestionTs q0 l) ∧
    ((∀ x ∈ pre, lineIsQuestion x = false) →
      (parse_transcript_usage now (FileResult.ok (pre ++ Line.record a :: suf)) fb).question_timestamp
        = now) := by
  have hqt : (parse_transcript_usage now (FileResult.ok (pre ++ Line.record a :: suf)) fb).question_timestamp
      = findQuestionTs now pre.reverse := by
    rw [scan_select now fb pre suf a m u ha hm hu hsuf]
  refine ⟨?_, ?_, ?_⟩
  · intro pre1 pre2 uR hpre hqr hpre2
    rw [hqt, hpre]
    have h2 : ∀ x ∈ pre2.reverse, lineIsQuestion x = false :=
      fun x hx => hpre2 x (List.mem_reverse.mp hx)
    rw [List.reverse_append, List.reverse_cons, List.append_assoc,
      findQuestionTs_append_skip now pre2.reverse _ h2]
    simp [findQuestionTs, hqr]
  · intro t l q0 ht
    have hq : isQuestionRec t = false := by
      simp [isQuestionRec, ht]
    simp [findQuestionTs, hq]
  · intro hnone
    rw [hqt]
    have h2 : ∀ x ∈ pre.reverse, lineIsQuestion x = false :=
      fun x hx => hnone x (List.mem_reverse.mp hx)
    have h3 : findQuestionTs now (pre.reverse ++ []) = findQuestionTs now [] :=
      findQuestionTs_append_skip now pre.reverse [] h2
    rw [List.append_nil] at h3
    rw [h3]
    rfl

/-- Witness for C5 (first conjunct): the record nearest to the assistant
carries a `toolUseResult` marker, so the question timestamp comes from the
qualifying user record further back (timestamp 5, not 8). -/
theorem claim_C5_question_timestamp_witness :
    (parse_transcript_usage (TimeVal.num 0)
        (FileResult.ok
          (([Line.record ⟨some "user", some ⟨none, none, none⟩, some (TimeVal.num 5), false⟩] ++
              Line.record ⟨some "user", some ⟨none, none, none⟩, some (TimeVal.num 8), true⟩ ::
                []) ++
            Line.record ⟨some "assistant",
              some ⟨some ⟨some 1, none, none, none⟩, none, none⟩,
              some (TimeVal.num 10), false⟩ :: []))
        "m").question_timestamp = TimeVal.num 5 := by
  have h := (claim_C5_question_timestamp (TimeVal.num 0) "m"
    ([Line.record ⟨some "user", some ⟨none, none, none⟩, some (TimeVal.num 5), false⟩] ++
      Line.record ⟨some "user", some ⟨none, none, none⟩, some (TimeVal.num 8), true⟩ :: [])
    []
    ⟨some "assistant", some ⟨some ⟨some 1, none, none, none⟩, none, none⟩,
      some (TimeVal.num 10), false⟩
    ⟨some ⟨some 1, none, none, none⟩, none, none⟩
    ⟨some 1, none, none, none⟩
    rfl rfl rfl (by decide)).1
    []
    [Line.record ⟨some "user", some ⟨none, none, none⟩, some (TimeVal.num 8), true⟩]
    ⟨some "user", some ⟨none, none, none⟩, some (TimeVal.num 5), false⟩
    rfl (by decide) (by decide)
  exact h.trans (by decide)

/-- On a top-level JSON object the key-presence loop aborts with a fatal
diagnostic exactly when one of the required keys is absent from the
object's field list. -/
theorem checkKeys_obj_fatal (fields : List (String × JVal)) (ks : List String) :
    (∃ msg, checkKeys (JVal.obj fields) ks = ValidationOutcome.fatal msg) ↔
      ∃ k ∈ ks, fields.any (fun p => p.1 == k) = false := by
  induction ks with
  | nil =>
    constructor
    · rintro ⟨msg, hmsg⟩
      exact absurd hmsg (by simp [checkKeys])
    · rintro ⟨k, hk, _⟩
      exact absurd hk (List.not_mem_nil k)
  | cons k ks ih =>
    by_cases hk : fields.any (fun p => p.1 == k) = true
    · have hstep : checkKeys (JVal.obj fields) (k :: ks) =
          checkKeys (JVal.obj fields) ks := by
        simp [checkKeys, jHasKey, hk]
      rw [hstep, ih]
      constructor
      · rintro ⟨k2, hk2, hp⟩
        exact ⟨k2, List.mem_cons_of_mem _ hk2, hp⟩
      · rintro ⟨k2, hk2, hp⟩
        rcases List.mem_cons.mp hk2 with h | h
        · subst h
          rw [hk] at hp
          exact absurd hp (by simp)
        · exact ⟨k2, h, hp⟩
    · have hk2 : fields.any (fun p => p.1 == k) = false := by
        cases hkk : fields.any (fun p => p.1 == k) with
        | false => rfl
        | true => exact absurd hkk hk
      have hstep : checkKeys (JVal.obj fields) (k :: ks) =
          ValidationOutcome.fatal ("Error: Missing required key " ++ k ++ " in JSON input") := by
        simp [checkKeys, jHasKey, hk2]
      exact ⟨fun _ => ⟨k, List.mem_cons_self _ _, hk2⟩, fun _ => ⟨_, hstep⟩⟩

/-- Claim C6: the color banding returns the high color exactly when
`p > 90`, the medium color exactly when `65 < p ≤ 90`, and no color
otherwise; the bands are exclusive on the upper boundary, so `p = 90`
yields medium and `p = 65` yields none. -/
theorem claim_C6_color_banding :
    (∀ p : ℚ,
      (get_context_color p = COLOR_HIGH ↔ 90 < p) ∧
      (get_context_color p = COLOR_MEDIUM ↔ 65 < p ∧ p ≤ 90) ∧
      (get_context_color p = COLOR_NONE ↔ p ≤ 65)) ∧
    get_context_color 90 = COLOR_MEDIUM ∧
    get_context_color 65 = COLOR_NONE := by
  refine ⟨?_, ?_, ?_⟩
  · intro p
    unfold get_context_color CONTEXT_HIGH_THRESHOLD CONTEXT_MEDIUM_THRESHOLD
      COLOR_HIGH COLOR_MEDIUM COLOR_NONE
    split_ifs with h1 h2
    · exact ⟨⟨fun _ => h1, fun _ => rfl⟩,
        ⟨fun h => by norm_num at h, fun h => absurd h1 (not_lt.mpr h.2)⟩,
        ⟨fun h => by norm_num at h, fun h => absurd h1 (not_lt.mpr (by linarith))⟩⟩
    · exact ⟨⟨fun h => by norm_num at h, fun h => absurd h h1⟩,
        ⟨fun _ => ⟨h2, not_lt.mp h1⟩, fun _ => rfl⟩,
        ⟨fun h => by norm_num at h, fun h => absurd h2 (not_lt.mpr h)⟩⟩
    · exact ⟨⟨fun h => by norm_num at h, fun h => absurd h h1⟩,
        ⟨fun h => by norm_num at h, fun h => absurd h.1 h2⟩,
        ⟨fun _ => not_lt.mp h2, fun _ => rfl⟩⟩
  · unfold get_context_color CONTEXT_HIGH_THRESHOLD CONTEXT_MEDIUM_THRESHOLD
    norm_num
  · unfold get_context_color CONTEXT_HIGH_THRESHOLD CONTEXT_MEDIUM_THRESHOLD
    norm_num

/-- Counterexample to claim C7 as stated: the claim promises a returned
value (authority, first path segment, or absent) for every input string,
but on the input consisting of a single opening bracket the normalized URL
has netloc `[`, `urlparse` raises `ValueError("Invalid IPv6 URL")`, the
exception is uncaught, and the program crashes instead of returning. -/
theorem claim_C7_counterexample :
    extract_base_host (some "[") = Except.error "Invalid IPv6 URL" := by
  rfl

/-- Claim C7 (amended): host extraction returns `none` for `None`, the
empty string and whitespace-only strings (Python's Unicode whitespace,
e.g. a string of one no-break space); when something usable remains it
prepends the default scheme if the `scheme://` marker is missing, parses,
and — whenever the parse succeeds — returns the authority component,
falling back to the first path segment and to `none` when nothing remains;
in particular `example.com` yields `example.com` and
`https://example.com/v1` yields `example.com`.  But an input whose
normalized authority carries an unbalanced square bracket makes `urlparse`
raise an uncaught `ValueError`, so the program crashes rather than
returning a value. -/
theorem claim_C7_host_extraction :
    (extract_base_host none = Except.ok none ∧
      extract_base_host (some "") = Except.ok none) ∧
    (∀ s : String, pyStrip s = "" → extract_base_host (some s) = Except.ok none) ∧
    (∀ (s : String) (parts : UrlParts), s ≠ "" → pyStrip s ≠ "" →
      urlsplitModel (normalizedCandidate (pyStrip s)) = Except.ok parts →
      extract_base_host (some s) = Except.ok (hostFromParts parts)) ∧
    (∀ (s e : String), s ≠ "" → pyStrip s ≠ "" →
      urlsplitModel (normalizedCandidate (pyStrip s)) = Except.error e →
      extract_base_host (some s) = Except.error e) ∧
    extract_base_host (some "example.com") = Except.ok (some "example.com") ∧
    extract_base_host (some "https://example.com/v1") = Except.ok (some "example.com") ∧
    extract_base_host (some "\u00A0") = Except.ok none := by
  refine ⟨⟨rfl, rfl⟩, ?_, ?_, ?_, by rfl, by rfl, by rfl⟩
  · intro s h
    by_cases hs : s = ""
    · rw [hs]; rfl
    · show (if s = "" then Except.ok none else _) = Except.ok none
      rw [if_neg hs, if_pos h]
  · intro s parts hs hp hsplit
    show (if s = "" then Except.ok none else _) = _
    rw [if_neg hs, if_neg hp, hsplit]
    rfl
  · intro s e hs hp hsplit
    show (if s = "" then Except.ok none else _) = _
    rw [if_neg hs, if_neg hp, hsplit]

/-- Claim C8: the input-validation stage of `main` aborts with exit code 1
and a one-line diagnostic exactly when stdin is empty after stripping,
stdin exceeds the size ceiling, the content is not valid JSON, or (for a
top-level JSON object) a required top-level key is absent; a fatal outcome
has exit code 1, a validated outcome exit code 0. -/
theorem claim_C8_exit_codes
    (parse : String → Option JVal) (raw : String)
    (h : ∀ v, parse (pyStrip raw) = some v → ∃ fields, v = JVal.obj fields) :
    ((∃ msg, mainOutcome parse raw = ValidationOutcome.fatal msg) ↔
      fatalInputError parse raw) ∧
    (∀ msg, mainOutcome parse raw = ValidationOutcome.fatal msg →
      exitCodeOf (mainOutcome parse raw) = 1) ∧
    (∀ d, mainOutcome parse raw = ValidationOutcome.ok d →
      exitCodeOf (mainOutcome parse raw) = 0) := by
  have hM : mainOutcome parse raw =
      (if pyStrip raw = "" then ValidationOutcome.fatal "Error: stdin is empty"
       else if MAX_STDIN_SIZE < (pyStrip raw).length then
         ValidationOutcome.fatal "Error: Input too large"
       else parse_json_input parse (pyStrip raw)) := rfl
  refine ⟨?_, fun msg hmsg => by rw [hmsg]; rfl, fun d hd => by rw [hd]; rfl⟩
  unfold fatalInputError
  by_cases h0 : pyStrip raw = ""
  · exact ⟨fun _ => Or.inl h0,
      fun _ => ⟨"Error: stdin is empty", by rw [hM, if_pos h0]⟩⟩
  · by_cases h1 : MAX_STDIN_SIZE < (pyStrip raw).length
    · exact ⟨fun _ => Or.inr (Or.inl h1),
        fun _ => ⟨"Error: Input too large", by rw [hM, if_neg h0, if_pos h1]⟩⟩
    · have hM2 : mainOutcome parse raw = parse_json_input parse (pyStrip raw) := by
        rw [hM, if_neg h0, if_neg h1]
      cases hp : parse (pyStrip raw) with
      | none =>
        have hfatal : mainOutcome parse raw = ValidationOutcome.fatal "Error JSON parsing" := by
          rw [hM2, parse_json_input, hp]
        exact ⟨fun _ => Or.inr (Or.inr (Or.inl rfl)), fun _ => ⟨_, hfatal⟩⟩
      | some v =>
        rcases h v hp with ⟨fields, rfl⟩
        have hM3 : mainOutcome parse raw = checkKeys (JVal.obj fields) required_keys := by
          rw [hM2, parse_json_input, hp]
        rw [hM3, checkKeys_obj_fatal fields required_keys]
        constructor
        · rintro ⟨k, hk, hkp⟩
          exact Or.inr (Or.inr (Or.inr ⟨fields, rfl, k, hk, hkp⟩))
        · rintro (h2 | h2 | h2 | ⟨fields2, hp2, k, hk, hkp⟩)
          · exact absurd h2 h0
          · exact absurd h2 h1
          · exact absurd h2 (by simp)
          · have heq : fields2 = fields := by
              injection hp2 with h3
              injection h3 with h4
              exact h4.symm
            subst heq
            exact ⟨k, hk, hkp⟩

/-- Witness for C8: an input that the JSON model rejects produces a fatal
one-line diagnostic. -/
theorem claim_C8_exit_codes_witness :
    ∃ msg, mainOutcome (fun _ => none) "x" = ValidationOutcome.fatal msg := by
  exact (claim_C8_exit_codes (fun _ => none) "x"
    (fun v hv => absurd hv (by simp))).1.mpr (Or.inr (Or.inr (Or.inl rfl)))

/-- Claim C9: duration formatting maps numeric seconds to `MM:SS` with
floor semantics (the float is floored, then the minute and second fields of
`gmtime` are rendered zero-padded), and a negative duration renders through
the same total rule — e.g. `-5` seconds renders as `59:55` — rather than
raising an error. -/
theorem claim_C9_duration_format :
    (∀ d : ℚ, readable_duration d =
      pad2 (gmtime_min ⌊d⌋) ++ ":" ++ pad2 (gmtime_sec ⌊d⌋)) ∧
    (∀ d : ℚ, ∃ m s : Nat, m < 60 ∧ s < 60 ∧
      readable_duration d = pad2 m ++ ":" ++ pad2 s) ∧
    readable_duration 65 = "01:05" ∧
    readable_duration (7 / 2) = "00:03" ∧
    readable_duration (-5) = "59:55" ∧
    readable_duration (-1 / 2) = "59:59" := by
  have h72 : ⌊(7 / 2 : ℚ)⌋ = 3 := by norm_num
  have hm12 : ⌊(-1 / 2 : ℚ)⌋ = -1 := by norm_num
  refine ⟨fun d => rfl, ?_, by decide,
    by unfold readable_duration; rw [h72]; decide,
    by decide,
    by unfold readable_duration; rw [hm12]; decide⟩
  intro d
  refine ⟨gmtime_min ⌊d⌋, gmtime_sec ⌊d⌋, ?_, ?_, rfl⟩
  · have h1 : (0 : Int) ≤ (⌊d⌋ : Int).emod 3600 := Int.emod_nonneg _ (by norm_num)
    have h2 : (⌊d⌋ : Int).emod 3600 < 3600 := Int.emod_lt_of_pos _ (by norm_num)
    unfold gmtime_min
    omega
  · have h1 : (0 : Int) ≤ (⌊d⌋ : Int).emod 60 := Int.emod_nonneg _ (by norm_num)
    have h2 : (⌊d⌋ : Int).emod 60 < 60 := Int.emod_lt_of_pos _ (by norm_num)
    unfold gmtime_sec
    omega

/-- Claim C10: the duration calculation returns exactly `0` when the two
timestamps are of mixed kinds (one string, one numeric) or when either
string fails to parse as an ISO timestamp, and a nonzero duration arises
only when both are strings that parse or both are numeric. -/
theorem claim_C10_duration_type_mismatch :
    (∀ (p : String → Option ℚ) (sa : String) (y : ℚ),
      calculate_response_duration p (TimeVal.str sa) (TimeVal.num y) = 0) ∧
    (∀ (p : String → Option ℚ) (sa : String) (y : ℚ),
      calculate_response_duration p (TimeVal.num y) (TimeVal.str sa) = 0) ∧
    (∀ (p : String → Option ℚ) (sa sq : String),
      p (sa.replace "Z" "+00:00") = none ∨ p (sq.replace "Z" "+00:00") = none →
      calculate_response_duration p (TimeVal.str sa) (TimeVal.str sq) = 0) ∧
    (∀ (p : String → Option ℚ) (a q : TimeVal),
      calculate_response_duration p a q ≠ 0 →
      (∃ x y : ℚ, a = TimeVal.num x ∧ q = TimeVal.num y) ∨
      (∃ (sa sq : String) (x y : ℚ), a = TimeVal.str sa ∧ q = TimeVal.str sq ∧
        p (sa.replace "Z" "+00:00") = some x ∧
        p (sq.replace "Z" "+00:00") = some y)) := by
  refine ⟨fun p sa y => rfl, fun p sa y => rfl, ?_, ?_⟩
  · intro p sa sq h
    rcases h with h | h
    · simp [calculate_response_duration, h]
    · cases hpa : p (sa.replace "Z" "+00:00") <;>
        simp [calculate_response_duration, hpa, h]
  · intro p a q h
    cases a with
    | str sa =>
      cases q with
      | str sq =>
        cases hpa : p (sa.replace "Z" "+00:00") with
        | none => exact absurd (by simp [calculate_response_duration, hpa]) h
        | some x =>
          cases hpq : p (sq.replace "Z" "+00:00") with
          | none => exact absurd (by simp [calculate_response_duration, hpa, hpq]) h
          | some y => exact Or.inr ⟨sa, sq, x, y, rfl, rfl, hpa, hpq⟩
      | num y => exact absurd rfl h
      | other => exact absurd rfl h
    | num x =>
      cases q with
      | str sq => exact absurd rfl h
      | num y => exact Or.inl ⟨x, y, rfl, rfl⟩
      | other => exact absurd rfl h
    | other => exact absurd rfl h

end Statusline
